import Mathlib

/-!
Verification of the MimicKit motion-viewer tooling against its specification.

The repository sources under verification are the web viewer
(`tools/motion_viewer/app.py`), the standalone Rerun visualizer
(`tools/motion_viewer/view_motion_rerun.py`) and the video recording helper
(`mimickit/util/video_recorder.py`).  The kinematic core they import
(`anim/motion.py`, `anim/mjcf_char_model.py`, `util/torch_util.py`) is not part
of the sources; those functions are modelled from the specification, as marked
in their doc comments.  Real-valued quantities are embedded as `ℝ`.
-/

namespace MimicKit

noncomputable section

/-- A 3-vector of reals (positions, offsets, exponential-map rotations). -/
structure Vec3 where
  x : ℝ
  y : ℝ
  z : ℝ

instance : Inhabited Vec3 := ⟨⟨0, 0, 0⟩⟩

/-- Componentwise vector addition. -/
def Vec3.add (a b : Vec3) : Vec3 := ⟨a.x + b.x, a.y + b.y, a.z + b.z⟩

/-- Scalar multiple of a vector. -/
def Vec3.smul (c : ℝ) (v : Vec3) : Vec3 := ⟨c * v.x, c * v.y, c * v.z⟩

/-- Euclidean norm of a 3-vector. -/
def Vec3.norm (v : Vec3) : ℝ := Real.sqrt (v.x ^ 2 + v.y ^ 2 + v.z ^ 2)

/-- A quaternion in the scalar-last convention `(x, y, z, w)` used throughout
the spec and the torch-side code. -/
structure Quat where
  x : ℝ
  y : ℝ
  z : ℝ
  w : ℝ

instance : Inhabited Quat := ⟨⟨0, 0, 0, 1⟩⟩

/-- The identity quaternion `(0,0,0,1)`. -/
def quatIdentity : Quat := ⟨0, 0, 0, 1⟩

/-- Modelled from the spec: the Hamilton product `p ⊗ q` of scalar-last
quaternions (the quaternion-multiply routine of `util/torch_util.py` is not in
the sources; §4.2 uses `⊗` for quaternion composition). -/
def quatMul (p q : Quat) : Quat :=
  ⟨p.w * q.x + p.x * q.w + p.y * q.z - p.z * q.y,
   p.w * q.y - p.x * q.z + p.y * q.w + p.z * q.x,
   p.w * q.z + p.x * q.y - p.y * q.x + p.z * q.w,
   p.w * q.w - p.x * q.x - p.y * q.y - p.z * q.z⟩

/-- Squared norm of a quaternion. -/
def quatNormSq (q : Quat) : ℝ := q.x ^ 2 + q.y ^ 2 + q.z ^ 2 + q.w ^ 2

/-- Modelled from the spec: renormalization of a quaternion after composition
(§4.1 mandates one renormalization after each multiply). -/
def quatNormalize (q : Quat) : Quat :=
  let n := Real.sqrt (quatNormSq q)
  ⟨q.x / n, q.y / n, q.z / n, q.w / n⟩

/-- Conjugate of a quaternion. -/
def quatConj (q : Quat) : Quat := ⟨-q.x, -q.y, -q.z, q.w⟩

/-- Modelled from the spec: rotation of a vector by a unit quaternion, as the
sandwich product `q ⊗ (v,0) ⊗ q⁻¹` (the torch-side rotate routine is not in
the sources; §4.2 writes it `rotate(q, v)`). -/
def quatRotate (q : Quat) (v : Vec3) : Vec3 :=
  let r := quatMul (quatMul q ⟨v.x, v.y, v.z, 0⟩) (quatConj q)
  ⟨r.x, r.y, r.z⟩

/-- Modelled from the spec: `torch_util.exp_map_to_quat` is not in the sources.
Per §4.1, a 3-vector `v` with angle `θ = |v|` maps to the unit quaternion
`(axis·sin(θ/2), cos(θ/2))` with `axis = v/θ`, and `θ ≈ 0` returns the
identity quaternion `(0,0,0,1)` without dividing by zero; the guard is
modelled as an exact zero test. -/
def exp_map_to_quat (v : Vec3) : Quat :=
  let θ := v.norm
  if θ = 0 then quatIdentity
  else ⟨v.x / θ * Real.sin (θ / 2), v.y / θ * Real.sin (θ / 2),
        v.z / θ * Real.sin (θ / 2), Real.cos (θ / 2)⟩

/-- Modelled from the spec: a joint specification (§3) — a degree-of-freedom
count and, for a 1-DOF joint, a fixed rotation axis.  (`anim/mjcf_char_model.py`
is not in the sources.) -/
structure JointSpec where
  dof : ℕ
  axis : Vec3

/-- Modelled from the spec: a body of the skeleton (§3) — name, parent index
(`-1` sentinel for the root), local offset from the parent, joint spec. -/
structure Body where
  name : String
  parent : Int
  offset : Vec3
  joint : JointSpec

instance : Inhabited Body := ⟨⟨"", -1, default, ⟨0, default⟩⟩⟩

/-- Modelled from the spec: a CharacterModel (§3) — an ordered sequence of
bodies indexed `0..N-1`. -/
structure CharacterModel where
  bodies : List Body

/-- Sum of DOF counts across all non-root bodies (§3 invariant: this equals
the length of a pose vector's joint-DOF segment). -/
def sumDof (m : CharacterModel) : ℕ :=
  (m.bodies.tail.map (fun b => b.joint.dof)).sum

/-- Checks `0 ≤ parent ∧ parent < i` for each body of the list, `i` being its
index starting at the given offset. -/
def parentsOKFrom : ℕ → List Body → Bool
  | _, [] => true
  | i, b :: rest =>
    (decide (0 ≤ b.parent) && decide (b.parent < (i : Int))) && parentsOKFrom (i + 1) rest

/-- The parent-before-child structural invariant of §3: the root (index 0) has
parent index `-1`, and every other body's parent index is nonnegative and
strictly less than its own index. -/
def validModel (m : CharacterModel) : Bool :=
  match m.bodies with
  | [] => false
  | root :: rest => root.parent == -1 && parentsOKFrom 1 rest

/-- Modelled from the spec: per-body DOF-to-rotation conversion (§4.1) — a
1-DOF joint with axis `a` and value `d` becomes the quaternion of the
exponential map `a·d`; a 3-DOF joint interprets its three values as a single
exponential-map vector.  (`MJCFCharModel.dof_to_rot` is not in the sources.) -/
def jointRot (j : JointSpec) (seg : List ℝ) : Quat :=
  if j.dof = 1 then exp_map_to_quat (Vec3.smul (seg.getD 0 0) j.axis)
  else exp_map_to_quat ⟨seg.getD 0 0, seg.getD 1 0, seg.getD 2 0⟩

/-- Splits a flat list into consecutive segments of the given sizes. -/
def splitSegs : List ℕ → List ℝ → List (List ℝ)
  | [], _ => []
  | n :: ns, xs => xs.take n :: splitSegs ns (xs.drop n)

/-- The first three components of a list, as a vector. -/
def listToVec3 (l : List ℝ) : Vec3 := ⟨l.getD 0 0, l.getD 1 0, l.getD 2 0⟩

/-- Root position decoded from a pose vector: components `[0:3]`, raw. -/
def decodeRootPos (pose : List ℝ) : Vec3 :=
  ⟨pose.getD 0 0, pose.getD 1 0, pose.getD 2 0⟩

/-- Root orientation decoded from a pose vector: exponential-map→quaternion of
components `[3:6]`. -/
def decodeRootRot (pose : List ℝ) : Quat :=
  exp_map_to_quat ⟨pose.getD 3 0, pose.getD 4 0, pose.getD 5 0⟩

/-- The per-body DOF segments of the joint-DOF part of a pose vector:
components `[6:]` partitioned into consecutive segments sized by the non-root
bodies' DOF counts, in body order. -/
def dofSegments (m : CharacterModel) (pose : List ℝ) : List (List ℝ) :=
  splitSegs (m.bodies.tail.map (fun b => b.joint.dof)) (pose.drop 6)

/-- Modelled from the spec: `MJCFCharModel.dof_to_rot` (not in the sources) —
partitions a joint-DOF vector into per-body segments (§4.2 step 2) and
converts each to a local joint rotation (§4.1). -/
def dof_to_rot (m : CharacterModel) (dofs : List ℝ) : List Quat :=
  List.zipWith (fun b seg => jointRot b.joint seg) m.bodies.tail
    (splitSegs (m.bodies.tail.map (fun b => b.joint.dof)) dofs)

/-- The local joint rotations of a pose vector, one per non-root body. -/
def jointRots (m : CharacterModel) (pose : List ℝ) : List Quat :=
  dof_to_rot m (pose.drop 6)

/-- One FK pass over the non-root bodies paired with their local rotations,
in index order, the accumulator holding the world transforms already
computed: body `i` with parent `p` gets world orientation
`normalize(world_orientation(p) ⊗ local_rotation(i))` and world position
`world_position(p) + rotate(world_orientation(p), local_offset(i))`. -/
def fkAux : List (Body × Quat) → List (Vec3 × Quat) → List (Vec3 × Quat)
  | [], acc => acc
  | (b, r) :: rest, acc =>
    let pr := acc.getD b.parent.toNat default
    fkAux rest
      (acc ++ [(Vec3.add pr.1 (quatRotate pr.2 b.offset),
                quatNormalize (quatMul pr.2 r))])

/-- Modelled from the spec: `MJCFCharModel.forward_kinematics` (not in the
sources) — §4.2 step 3: traverse bodies in index order; the root takes the
decoded root position/orientation, every other body the parent-composed
transform. -/
def forward_kinematics (m : CharacterModel) (rootPos : Vec3) (rootRot : Quat)
    (rots : List Quat) : List (Vec3 × Quat) :=
  fkAux (m.bodies.tail.zip rots) [(rootPos, rootRot)]

/-- Modelled from the spec: the `evaluate(model, pose_vector) → Pose` core API
(§6) — decode the root transform and joint rotations from one pose vector and
run forward kinematics. -/
def evaluate (m : CharacterModel) (pose : List ℝ) : List (Vec3 × Quat) :=
  forward_kinematics m (decodeRootPos pose) (decodeRootRot pose)
    (jointRots m pose)

/-- The error kinds of §7. -/
inductive CoreErr where
  | ShapeMismatch
  | StructuralInvariantViolation
  | OutOfRange
deriving DecidableEq

/-- Modelled from the spec: the fail-closed evaluation contract (§4.2, §7) —
a pose vector whose length differs from `6 + sum(DOF)` fails with
`ShapeMismatch`; a model violating the structural invariant fails with
`StructuralInvariantViolation`; otherwise the Pose is produced. -/
def evaluateChecked (m : CharacterModel) (pose : List ℝ) :
    Except CoreErr (List (Vec3 × Quat)) :=
  if pose.length ≠ 6 + sumDof m then Except.error CoreErr.ShapeMismatch
  else if validModel m = false then
    Except.error CoreErr.StructuralInvariantViolation
  else Except.ok (evaluate m pose)

/-- The parent index of body `i` as a natural number. -/
def parentIdx (m : CharacterModel) (i : ℕ) : ℕ :=
  (m.bodies.getD i default).parent.toNat

/-- The local joint rotation assigned to non-root body `i` by the decoding of
a pose vector: its joint spec applied to its DOF segment. -/
def localJointRot (m : CharacterModel) (pose : List ℝ) (i : ℕ) : Quat :=
  jointRot (m.bodies.getD i default).joint ((dofSegments m pose).getD (i - 1) [])

/-- A concrete two-body chain: a root with a 3-DOF joint placeholder and one
child at offset `(1,0,0)` with a 3-DOF joint. -/
def chainModel : CharacterModel :=
  ⟨[⟨"root", -1, ⟨0, 0, 0⟩, ⟨3, ⟨0, 0, 0⟩⟩⟩,
    ⟨"child", 0, ⟨1, 0, 0⟩, ⟨3, ⟨1, 0, 0⟩⟩⟩]⟩

/-- A concrete all-zero pose vector for `chainModel`: length `6 + 3 = 9`. -/
def chainPose : List ℝ := [0, 0, 0, 0, 0, 0, 0, 0, 0]

/-- The per-frame skeleton computation of the web viewer's skeleton endpoint
(`app.py`, `get_motion_skeleton`, lines 84–99): slice the frame into
`frame[0:3]`, `frame[3:6]`, `frame[6:]`, convert the exponential map to a
quaternion, convert the joint DOFs to rotations, and run forward
kinematics. -/
def appFramePipeline (m : CharacterModel) (frame : List ℝ) :
    List (Vec3 × Quat) :=
  let root_pos := listToVec3 (frame.take 3)
  let root_rot_exp := listToVec3 ((frame.drop 3).take 3)
  let joint_dof := frame.drop 6
  let root_rot := exp_map_to_quat root_rot_exp
  let joint_rot := dof_to_rot m joint_dof
  forward_kinematics m root_pos root_rot joint_rot

/-- The per-frame skeleton computation of the standalone Rerun visualizer
(`view_motion_rerun.py`, `visualize_motion`, lines 76–89): slice the frame
into `frame[0:3]`, `frame[3:6]`, `frame[6:]`, convert the exponential map to
a quaternion, convert the joint DOFs to rotations, and run forward
kinematics. -/
def rerunFramePipeline (m : CharacterModel) (frame : List ℝ) :
    List (Vec3 × Quat) :=
  let root_pos := listToVec3 (frame.take 3)
  let root_rot_exp := listToVec3 ((frame.drop 3).take 3)
  let joint_dof := frame.drop 6
  let root_rot := exp_map_to_quat root_rot_exp
  let joint_rot := dof_to_rot m joint_dof
  forward_kinematics m root_pos root_rot joint_rot

/-- The loop modes of a motion (§3); in the persisted record CLAMP is value
`0` and WRAP value `1`. -/
inductive LoopMode where
  | CLAMP
  | WRAP
deriving DecidableEq

/-- Modelled from the spec: the Motion data holder (§3) — `anim/motion.py` is
not in the sources.  An ordered sequence of pose vectors, a sampling rate and
a loop mode. -/
structure Motion where
  frames : List (List ℝ)
  fps : ℝ
  loop_mode : LoopMode

/-- Modelled from the spec: `Motion.get_length` (`anim/motion.py` is not in
the sources) — §4.3: duration is `(num_frames - 1) / fps` in CLAMP mode and
`num_frames / fps` in WRAP mode. -/
def Motion.get_length (m : Motion) : ℝ :=
  match m.loop_mode with
  | LoopMode.CLAMP => ((m.frames.length : ℝ) - 1) / m.fps
  | LoopMode.WRAP => (m.frames.length : ℝ) / m.fps

/-- A concrete two-frame WRAP motion at 1 fps over the chain model's pose
layout. -/
def wrapMotion : Motion :=
  ⟨[[0, 0, 0, 0, 0, 0, 0, 0, 0], [1, 0, 0, 0, 0, 0, 0, 0, 0]], 1,
   LoopMode.WRAP⟩

/-- Modelled from the spec: `resolve_time(motion, t) → frame_index` (§4.3,
§6; `anim/motion.py` is not in the sources).  An empty motion fails with
`OutOfRange`; CLAMP clamps `t` into `[0, duration]` and the index to
`[0, num_frames-1]`; WRAP reduces `t` modulo the duration into `[0, duration)`
and takes `floor(t·fps) mod num_frames`. -/
def resolve_time (m : Motion) (t : ℝ) : Except CoreErr ℕ :=
  if m.frames.length = 0 then Except.error CoreErr.OutOfRange
  else
    match m.loop_mode with
    | LoopMode.CLAMP =>
      let t' := max 0 (min t m.get_length)
      Except.ok (min (Int.toNat ⌊t' * m.fps⌋) (m.frames.length - 1))
    | LoopMode.WRAP =>
      let t' := t - m.get_length * ⌊t / m.get_length⌋
      Except.ok (Int.toNat ⌊t' * m.fps⌋ % m.frames.length)

/-- The body of an HTTP response produced by the web viewer's motion
endpoints (`app.py`): one of the three JSON payload shapes or a JSON error
object `{"error": msg}`. -/
inductive HttpBody where
  | skeletonPayload (body_names : List String) (parent_indices : List Int)
      (frames : List (List Vec3)) (num_bodies : ℕ)
  | motionPayload (fps : ℝ) (loop_mode : LoopMode) (frames : List (List ℝ))
      (num_frames : ℕ) (duration : ℝ) (file_size : ℕ)
  | rawPayload (data : List (String × String))
  | errorJson (msg : String)

/-- Whether a response body is one of the data payloads (as opposed to a JSON
error object). -/
def HttpBody.isPayload : HttpBody → Bool
  | HttpBody.errorJson _ => false
  | _ => true

/-- An HTTP response: a status code and a JSON body. -/
structure HttpResponse where
  status : ℕ
  body : HttpBody

/-- The inputs that determine a run of the skeleton endpoint handler: whether
the motion file exists, the character name parsed from the path, the result
of the character-model lookup, and the outcome of loading the motion (an
exception raised while loading or evaluating is the `error` case, carrying
`str(e)`). -/
structure SkeletonRequest where
  fileExists : Bool
  characterName : String
  charModel : Option CharacterModel
  loadMotion : Except String Motion

/-- The handler of `GET /api/motion/<filename>/skeleton` (`app.py` lines
59–118): 404 if the file is missing, 404 if the character model is missing,
500 with the exception message if loading raises, otherwise a 200 skeleton
payload with per-frame body positions computed by the inline
forward-kinematics pipeline. -/
def get_motion_skeleton (req : SkeletonRequest) : HttpResponse :=
  if req.fileExists = false then ⟨404, HttpBody.errorJson "File not found"⟩
  else
    match req.charModel with
    | none =>
      ⟨404, HttpBody.errorJson
        ("Character model not found for " ++ req.characterName)⟩
    | some cm =>
      match req.loadMotion with
      | Except.error e => ⟨500, HttpBody.errorJson e⟩
      | Except.ok motion =>
        ⟨200, HttpBody.skeletonPayload (cm.bodies.map (fun b => b.name))
            (cm.bodies.map (fun b => b.parent))
            (motion.frames.map
              (fun f => (appFramePipeline cm f).map (fun p => p.1)))
            cm.bodies.length⟩

/-- The inputs that determine a run of the motion-data endpoint handler. -/
structure MotionRequest where
  fileExists : Bool
  loadMotion : Except String Motion
  fileSize : ℕ

/-- The handler of `GET /api/motion/<filename>` (`app.py` lines 152–173):
404 if the file is missing, 500 with the exception message if loading raises,
otherwise a 200 payload with fps, loop mode, frames, frame count, duration
and file size. -/
def get_motion (req : MotionRequest) : HttpResponse :=
  if req.fileExists = false then ⟨404, HttpBody.errorJson "File not found"⟩
  else
    match req.loadMotion with
    | Except.error e => ⟨500, HttpBody.errorJson e⟩
    | Except.ok motion =>
      ⟨200, HttpBody.motionPayload motion.fps motion.loop_mode motion.frames
          motion.frames.length motion.get_length req.fileSize⟩

/-- The inputs that determine a run of the raw endpoint handler; the unpickled
key/value pairs are abstracted as strings. -/
structure RawRequest where
  fileExists : Bool
  loadPickle : Except String (List (String × String))

/-- The handler of `GET /api/motion/<filename>/raw` (`app.py` lines 120–150):
404 if the file is missing, 500 with the exception message if unpickling
raises, otherwise a 200 payload of the serialized data. -/
def get_motion_raw (req : RawRequest) : HttpResponse :=
  if req.fileExists = false then ⟨404, HttpBody.errorJson "File not found"⟩
  else
    match req.loadPickle with
    | Except.error e => ⟨500, HttpBody.errorJson e⟩
    | Except.ok d => ⟨200, HttpBody.rawPayload d⟩

/-- An observable side effect of the recording helper
(`mimickit/util/video_recorder.py`): replicator calls, viewport renders,
video encoding/upload, log lines. -/
inductive RecAction where
  | createRenderProduct
  | createAnnotator
  | render
  | writeVideo
  | uploadVideo
  | logMsg (msg : String)
deriving DecidableEq

/-- The mutable state of a `VideoRecorder`: configuration, the recorded-frames
buffer, the recording flag and the lazily created annotator / render-product
handles (frames are abstracted as flat pixel lists; the externally owned
handles as numeric ids). -/
structure RecorderState where
  resolution : ℕ × ℕ
  fps : ℕ
  recorded_frames : List (List ℕ)
  recording : Bool
  annotator : Option ℕ
  render_product : Option ℕ
deriving DecidableEq

/-- `VideoRecorder.__init__`: empty frame buffer, not recording, no annotator
and no render product. -/
def recorderInit (resolution : ℕ × ℕ) (fps : ℕ) : RecorderState :=
  ⟨resolution, fps, [], false, none, none⟩

/-- `VideoRecorder._ensure_annotator`: if the annotator already exists return
immediately, otherwise create the render product and RGB annotator and log. -/
def ensure_annotator (s : RecorderState) : RecorderState × List RecAction :=
  match s.annotator with
  | some _ => (s, [])
  | none =>
    ({ s with render_product := some 0, annotator := some 0 },
     [RecAction.createRenderProduct, RecAction.createAnnotator,
      RecAction.logMsg "[VideoRecorder] Created RGB annotator"])

/-- `VideoRecorder._capture_frame`: ensure the annotator, render the scene,
read the RGB data (an all-zero frame when the renderer returned nothing) and
append the frame to the buffer.  The per-pixel alpha-channel drop is
abstracted away. -/
def capture_frame_impl (s : RecorderState) (rgbData : Option (List ℕ)) :
    RecorderState × List RecAction :=
  let p := ensure_annotator s
  let frame :=
    match rgbData with
    | none => List.replicate (p.1.resolution.2 * p.1.resolution.1 * 3) 0
    | some d =>
      if d.length = 0 then
        List.replicate (p.1.resolution.2 * p.1.resolution.1 * 3) 0
      else d
  ({ p.1 with recorded_frames := p.1.recorded_frames ++ [frame] },
   p.2 ++ [RecAction.render])

/-- `VideoRecorder.capture_frame`: capture only while the recording flag is
set, otherwise do nothing. -/
def capture_frame (s : RecorderState) (rgbData : Option (List ℕ)) :
    RecorderState × List RecAction :=
  if s.recording then capture_frame_impl s rgbData else (s, [])

/-- `VideoRecorder._stop_recording`: when not recording or no frames were
captured just clear the flag; otherwise clear the flag, write the video,
upload it when a WandB run is active, and empty the frame buffer.  The
annotator and render-product fields are not touched.  (`wandbRun` tells
whether `wandb.run` is set; the exception paths only affect log output.) -/
def stop_recording_impl (s : RecorderState) (wandbRun : Bool) :
    RecorderState × List RecAction :=
  if s.recording = false ∨ s.recorded_frames.length = 0 then
    ({ s with recording := false }, [])
  else
    ({ s with recording := false, recorded_frames := [] },
     RecAction.writeVideo ::
       (if wandbRun then
          [RecAction.uploadVideo,
           RecAction.logMsg "[VideoRecorder] Uploaded video to WandB"]
        else
          [RecAction.logMsg
            "[VideoRecorder] WandB not initialized, skipping upload"]))

/-- `VideoRecorder.stop_recording`: a no-op when not recording, otherwise the
teardown above. -/
def stop_recording (s : RecorderState) (wandbRun : Bool) :
    RecorderState × List RecAction :=
  if s.recording = false then (s, []) else stop_recording_impl s wandbRun

/-- `VideoRecorder.start_recording`: stop any recording in progress first,
then reset the frame buffer and set the recording flag. -/
def start_recording (s : RecorderState) (wandbRun : Bool) :
    RecorderState × List RecAction :=
  let p :=
    if s.recording then
      let q := stop_recording s wandbRun
      (q.1,
       RecAction.logMsg
         "[VideoRecorder] Already recording, stopping previous recording first"
         :: q.2)
    else (s, [])
  ({ p.1 with recorded_frames := [], recording := true },
   p.2 ++ [RecAction.logMsg "[VideoRecorder] Started recording"])

theorem vec_norm_zero_iff (v : Vec3) : v.norm = 0 ↔ v = ⟨0, 0, 0⟩ := by
  unfold Vec3.norm
  constructor
  · intro h
    have hx : v.x ^ 2 + v.y ^ 2 + v.z ^ 2 = 0 := by
      have h0 : (0:ℝ) ≤ v.x ^ 2 + v.y ^ 2 + v.z ^ 2 := by positivity
      have := Real.sqrt_eq_zero h0 |>.mp h
      exact this
    obtain ⟨a, b, c⟩ := v
    simp only at hx
    have hax : a = 0 := by nlinarith [sq_nonneg a, sq_nonneg b, sq_nonneg c]
    have hby : b = 0 := by nlinarith [sq_nonneg a, sq_nonneg b, sq_nonneg c]
    have hcz : c = 0 := by nlinarith [sq_nonneg a, sq_nonneg b, sq_nonneg c]
    simp [hax, hby, hcz]
  · intro h
    subst h
    simp

theorem exp_map_norm_sq (v : Vec3) (hv : v ≠ ⟨0, 0, 0⟩) :
    quatNormSq (exp_map_to_quat v) = 1 := by
  have hn : v.norm ≠ 0 := fun h => hv ((vec_norm_zero_iff v).mp h)
  have hnn : (0:ℝ) ≤ v.x ^ 2 + v.y ^ 2 + v.z ^ 2 := by positivity
  have hsq : v.norm ^ 2 = v.x ^ 2 + v.y ^ 2 + v.z ^ 2 := Real.sq_sqrt hnn
  unfold exp_map_to_quat quatNormSq
  simp only [hn, if_neg hn]
  have hs := Real.sin_sq_add_cos_sq (v.norm / 2)
  field_simp
  nlinarith [hs, hsq, sq_nonneg v.norm]

theorem getD_append_length {α : Type} [Inhabited α] (acc : List α) (e d : α) :
    (acc ++ [e]).getD acc.length d = e := by
  induction acc with
  | nil => rfl
  | cons a as ih => simp [ih]

theorem fkAux_length (l : List (Body × Quat)) :
    ∀ acc : List (Vec3 × Quat), (fkAux l acc).length = acc.length + l.length := by
  induction l with
  | nil => intro acc; simp [fkAux]
  | cons hd rest ih =>
    intro acc
    obtain ⟨b, r⟩ := hd
    simp only [fkAux]
    rw [ih]
    simp
    omega

theorem fkAux_stable (l : List (Body × Quat)) :
    ∀ (acc : List (Vec3 × Quat)) (j : ℕ), j < acc.length →
      (fkAux l acc).getD j default = acc.getD j default := by
  induction l with
  | nil => intro acc j _; rfl
  | cons hd rest ih =>
    intro acc j hj
    obtain ⟨b, r⟩ := hd
    simp only [fkAux]
    rw [ih _ j (by simp; omega)]
    exact List.getD_append _ _ _ _ hj

theorem fkAux_getD (l : List (Body × Quat)) :
    ∀ (acc : List (Vec3 × Quat)) (k : ℕ), k < l.length →
      (l.getD k default).1.parent.toNat < acc.length + k →
      (fkAux l acc).getD (acc.length + k) default =
        (Vec3.add ((fkAux l acc).getD (l.getD k default).1.parent.toNat default).1
           (quatRotate ((fkAux l acc).getD (l.getD k default).1.parent.toNat default).2
             (l.getD k default).1.offset),
         quatNormalize
           (quatMul ((fkAux l acc).getD (l.getD k default).1.parent.toNat default).2
             (l.getD k default).2)) := by
  induction l with
  | nil => intro acc k hk; exact absurd hk (by simp)
  | cons hd rest ih =>
    intro acc k hk hp
    obtain ⟨b, r⟩ := hd
    match k with
    | 0 =>
      simp only [List.getD_cons_zero] at hp ⊢
      simp only [fkAux]
      have hlt : acc.length < (acc ++
          [(Vec3.add (acc.getD b.parent.toNat default).1
              (quatRotate (acc.getD b.parent.toNat default).2 b.offset),
            quatNormalize (quatMul (acc.getD b.parent.toNat default).2 r))]).length := by
        simp
      rw [Nat.add_zero, fkAux_stable rest _ acc.length hlt, getD_append_length]
      have hplt : b.parent.toNat < (acc ++
          [(Vec3.add (acc.getD b.parent.toNat default).1
              (quatRotate (acc.getD b.parent.toNat default).2 b.offset),
            quatNormalize (quatMul (acc.getD b.parent.toNat default).2 r))]).length := by
        simp
        omega
      rw [fkAux_stable rest _ b.parent.toNat hplt,
        List.getD_append _ _ _ _ (by omega)]
    | k' + 1 =>
      simp only [List.getD_cons_succ] at hp ⊢
      simp only [fkAux]
      have hacc : (acc ++
          [(Vec3.add (acc.getD b.parent.toNat default).1
              (quatRotate (acc.getD b.parent.toNat default).2 b.offset),
            quatNormalize (quatMul (acc.getD b.parent.toNat default).2 r))]).length =
          acc.length + 1 := by simp
      have hidx : acc.length + (k' + 1) = (acc ++
          [(Vec3.add (acc.getD b.parent.toNat default).1
              (quatRotate (acc.getD b.parent.toNat default).2 b.offset),
            quatNormalize (quatMul (acc.getD b.parent.toNat default).2 r))]).length + k' := by
        rw [hacc]; omega
      rw [hidx]
      exact ih _ k' (by simpa using hk) (by rw [hacc]; omega)

theorem splitSegs_length (ns : List ℕ) :
    ∀ xs : List ℝ, (splitSegs ns xs).length = ns.length := by
  induction ns with
  | nil => intro xs; rfl
  | cons n ns' ih => intro xs; simp [splitSegs, ih]

theorem splitSegs_getD (ns : List ℕ) :
    ∀ (xs : List ℝ) (k : ℕ), k < ns.length →
      (splitSegs ns xs).getD k [] =
        (xs.drop ((ns.take k).sum)).take (ns.getD k 0) := by
  induction ns with
  | nil => intro xs k hk; exact absurd hk (by simp)
  | cons n ns' ih =>
    intro xs k hk
    match k with
    | 0 => simp [splitSegs]
    | k' + 1 =>
      simp only [splitSegs, List.getD_cons_succ, List.take_succ_cons, List.sum_cons]
      rw [ih (xs.drop n) k' (by simpa using hk), List.drop_drop]

theorem parentsOKFrom_getD (l : List Body) :
    ∀ n : ℕ, parentsOKFrom n l = true →
      ∀ k, k < l.length →
        0 ≤ (l.getD k default).parent ∧
          (l.getD k default).parent < ((n + k : ℕ) : Int) := by
  induction l with
  | nil => intro n _ k hk; exact absurd hk (by simp)
  | cons b rest ih =>
    intro n h k hk
    simp only [parentsOKFrom, Bool.and_eq_true, decide_eq_true_eq] at h
    obtain ⟨⟨h0, h1⟩, h2⟩ := h
    match k with
    | 0 => simpa using ⟨h0, h1⟩
    | k' + 1 =>
      obtain ⟨ha, hb⟩ := ih (n + 1) h2 k' (by simpa using hk)
      simp only [List.getD_cons_succ]
      exact ⟨ha, by omega⟩

theorem validModel_ne_nil (m : CharacterModel) (h : validModel m = true) :
    m.bodies ≠ [] := by
  intro hnil
  rw [validModel, hnil] at h
  exact absurd h (by simp)

theorem validModel_parent (m : CharacterModel) (h : validModel m = true) :
    ∀ i, 0 < i → i < m.bodies.length →
      0 ≤ (m.bodies.getD i default).parent ∧
        (m.bodies.getD i default).parent < (i : Int) := by
  intro i hi hlen
  rcases hb : m.bodies with _ | ⟨root, rest⟩
  · exact absurd hb (validModel_ne_nil m h)
  · rw [validModel, hb, Bool.and_eq_true] at h
    have hrest := parentsOKFrom_getD rest 1 h.2
    match i, hi with
    | i' + 1, _ =>
      have := hrest i' (by rw [hb] at hlen; simpa using hlen)
      simp only [List.getD_cons_succ]
      constructor
      · exact this.1
      · have h2 := this.2
        have : ((1 + i' : ℕ) : Int) = (i' + 1 : ℕ) := by push_cast; ring
        omega

theorem jointRots_length (m : CharacterModel) (pose : List ℝ) :
    (jointRots m pose).length = m.bodies.tail.length := by
  simp [jointRots, dof_to_rot, splitSegs_length]

theorem fkInput_getD (m : CharacterModel) (pose : List ℝ) (k : ℕ)
    (hk : k < m.bodies.tail.length) :
    (m.bodies.tail.zip (jointRots m pose)).getD k default =
      (m.bodies.tail.getD k default,
       jointRot (m.bodies.tail.getD k default).joint
         ((dofSegments m pose).getD k [])) := by
  have hr : k < (jointRots m pose).length := by rw [jointRots_length]; exact hk
  have h1 : k < (m.bodies.tail.zip (jointRots m pose)).length := by
    rw [List.length_zip]; exact lt_min hk hr
  have hs : k < (dofSegments m pose).length := by
    rw [dofSegments, splitSegs_length]; simpa using hk
  rw [List.getD_eq_getElem _ _ h1, List.getElem_zip]
  refine Prod.ext ?_ ?_
  · simp only
    rw [List.getD_eq_getElem _ _ hk]
  · simp only
    rw [List.getD_eq_getElem _ _ hk, List.getD_eq_getElem _ _ hs]
    simp only [jointRots, dof_to_rot]
    rw [List.getElem_zipWith]
    rfl

theorem evaluate_length (m : CharacterModel) (pose : List ℝ)
    (h : validModel m = true) :
    (evaluate m pose).length = m.bodies.length := by
  have hne := validModel_ne_nil m h
  have hlen0 : m.bodies.length ≠ 0 := by
    simpa using fun hz => hne (List.length_eq_zero.mp hz)
  unfold evaluate forward_kinematics
  rw [fkAux_length, List.length_zip, jointRots_length]
  simp only [List.length_singleton, List.length_tail, min_self]
  omega

/-- C1: for every CharacterModel satisfying the parent-before-child invariant
and every pose vector of the correct length, `evaluate` gives the root body
the decoded root position/orientation, and gives every non-root body `i` with
parent `p` the world orientation `normalize(world_orientation(p) ⊗
local_rotation(i))` and the world position `world_position(p) +
rotate(world_orientation(p), local_offset(i))`, one output entry per body in
index order. -/
theorem C1_forward_kinematics_correct (m : CharacterModel) (pose : List ℝ)
    (hv : validModel m = true) (_hlen : pose.length = 6 + sumDof m) :
    (evaluate m pose).length = m.bodies.length ∧
    (evaluate m pose).getD 0 default = (decodeRootPos pose, decodeRootRot pose) ∧
    ∀ i, 0 < i → i < m.bodies.length →
      (evaluate m pose).getD i default =
        (Vec3.add ((evaluate m pose).getD (parentIdx m i) default).1
           (quatRotate ((evaluate m pose).getD (parentIdx m i) default).2
             (m.bodies.getD i default).offset),
         quatNormalize
           (quatMul ((evaluate m pose).getD (parentIdx m i) default).2
             (localJointRot m pose i))) := by
  refine ⟨evaluate_length m pose hv, ?_, ?_⟩
  · have := fkAux_stable (m.bodies.tail.zip (jointRots m pose))
      [(decodeRootPos pose, decodeRootRot pose)] 0 (by simp)
    simpa [evaluate, forward_kinematics] using this
  · intro i hi hilen
    obtain ⟨hp0, hp1⟩ := validModel_parent m hv i hi hilen
    have hpn : parentIdx m i < i := by
      rw [parentIdx]
      exact (Int.toNat_lt hp0).mpr hp1
    have hne := validModel_ne_nil m hv
    have htail : i - 1 < m.bodies.tail.length := by
      rw [List.length_tail]; omega
    have hk : i - 1 < (m.bodies.tail.zip (jointRots m pose)).length := by
      rw [List.length_zip, jointRots_length, min_self]; exact htail
    have hzip := fkInput_getD m pose (i - 1) htail
    have hbody : m.bodies.tail.getD (i - 1) default = m.bodies.getD i default := by
      obtain ⟨k, rfl⟩ : ∃ k, i = k + 1 := ⟨i - 1, by omega⟩
      rcases hb : m.bodies with _ | ⟨b0, rest⟩
      · exact absurd hb hne
      · simp [List.tail_cons, List.getD_cons_succ]
    have hpar : ((m.bodies.tail.zip (jointRots m pose)).getD (i - 1)
        default).1.parent.toNat <
        ([(decodeRootPos pose, decodeRootRot pose)] :
          List (Vec3 × Quat)).length + (i - 1) := by
      rw [hzip]
      simp only [List.length_singleton]
      rw [hbody]
      have : (m.bodies.getD i default).parent.toNat = parentIdx m i := rfl
      omega
    have hmain := fkAux_getD (m.bodies.tail.zip (jointRots m pose))
      [(decodeRootPos pose, decodeRootRot pose)] (i - 1) hk hpar
    rw [hzip, hbody] at hmain
    simp only [List.length_singleton] at hmain
    rw [show 1 + (i - 1) = i from by omega] at hmain
    have hlocal : jointRot (m.bodies.getD i default).joint
        ((dofSegments m pose).getD (i - 1) []) = localJointRot m pose i := rfl
    rw [hlocal] at hmain
    have hpi : (m.bodies.getD i default).parent.toNat = parentIdx m i := rfl
    rw [hpi] at hmain
    exact hmain

theorem chainModel_valid : validModel chainModel = true := by decide

theorem chainPose_length : chainPose.length = 6 + sumDof chainModel := by
  simp [chainPose, sumDof, chainModel]

/-- Witness for C1 at the concrete two-body chain and all-zero pose. -/
theorem C1_forward_kinematics_correct_witness :
    (validModel chainModel = true ∧
      chainPose.length = 6 + sumDof chainModel) ∧
    ((evaluate chainModel chainPose).length = chainModel.bodies.length ∧
     (evaluate chainModel chainPose).getD 0 default =
       (decodeRootPos chainPose, decodeRootRot chainPose) ∧
     ∀ i, 0 < i → i < chainModel.bodies.length →
       (evaluate chainModel chainPose).getD i default =
         (Vec3.add ((evaluate chainModel chainPose).getD (parentIdx chainModel i)
              default).1
            (quatRotate ((evaluate chainModel chainPose).getD
                (parentIdx chainModel i) default).2
              (chainModel.bodies.getD i default).offset),
          quatNormalize
            (quatMul ((evaluate chainModel chainPose).getD
                (parentIdx chainModel i) default).2
              (localJointRot chainModel chainPose i)))) :=
  ⟨⟨chainModel_valid, chainPose_length⟩,
   C1_forward_kinematics_correct chainModel chainPose chainModel_valid
     chainPose_length⟩

theorem getD_take (l : List ℝ) (n j : ℕ) (d : ℝ) (h : j < n) :
    (l.take n).getD j d = l.getD j d := by
  by_cases hj : j < l.length
  · have h1 : j < (l.take n).length := by
      rw [List.length_take]; exact lt_min h hj
    rw [List.getD_eq_getElem _ _ h1, List.getD_eq_getElem _ _ hj,
      List.getElem_take]
  · have h1 : (l.take n).length ≤ j := by
      rw [List.length_take]; omega
    rw [List.getD_eq_default _ _ h1, List.getD_eq_default _ _ (by omega)]

theorem getD_drop (l : List ℝ) (n j : ℕ) (d : ℝ) :
    (l.drop n).getD j d = l.getD (n + j) d := by
  by_cases hj : j < (l.drop n).length
  · have h2 : n + j < l.length := by
      rw [List.length_drop] at hj; omega
    rw [List.getD_eq_getElem _ _ hj, List.getD_eq_getElem _ _ h2,
      List.getElem_drop]
  · have h1 : (l.drop n).length ≤ j := by omega
    have h2 : l.length ≤ n + j := by
      rw [List.length_drop] at h1; omega
    rw [List.getD_eq_default _ _ h1, List.getD_eq_default _ _ h2]

theorem jointRots_getD (m : CharacterModel) (pose : List ℝ) (k : ℕ)
    (hk : k < m.bodies.tail.length) :
    (jointRots m pose).getD k default =
      jointRot (m.bodies.tail.getD k default).joint
        ((dofSegments m pose).getD k []) := by
  have hr : k < (jointRots m pose).length := by rw [jointRots_length]; exact hk
  have hs : k < (dofSegments m pose).length := by
    rw [dofSegments, splitSegs_length]; simpa using hk
  rw [List.getD_eq_getElem _ _ hr]
  simp only [jointRots, dof_to_rot]
  rw [List.getElem_zipWith]
  rw [List.getD_eq_getElem _ _ hk, List.getD_eq_getElem _ _ hs]
  rfl

/-- C2: decoding a pose vector extracts the root position as components
`[0:3]` unchanged, the root orientation as the exponential-map→quaternion of
components `[3:6]`, and partitions the components `[6:]` into consecutive
per-body DOF segments in body order (root excluded) — segment `k` starts right
after the DOF values of the earlier non-root bodies and has exactly the body's
DOF count — each segment being converted to a local joint rotation. -/
theorem C2_pose_decoding (m : CharacterModel) (pose : List ℝ)
    (hlen : pose.length = 6 + sumDof m) :
    decodeRootPos pose = listToVec3 (pose.take 3) ∧
    decodeRootRot pose = exp_map_to_quat (listToVec3 ((pose.drop 3).take 3)) ∧
    (∀ k, k < m.bodies.tail.length →
      (dofSegments m pose).getD k [] =
        ((pose.drop 6).drop
            (((m.bodies.tail.map (fun b => b.joint.dof)).take k).sum)).take
          ((m.bodies.tail.map (fun b => b.joint.dof)).getD k 0) ∧
      ((dofSegments m pose).getD k []).length =
        (m.bodies.tail.map (fun b => b.joint.dof)).getD k 0) ∧
    (∀ k, k < m.bodies.tail.length →
      (jointRots m pose).getD k default =
        jointRot (m.bodies.tail.getD k default).joint
          ((dofSegments m pose).getD k [])) := by
  refine ⟨?_, ?_, ?_, fun k hk => jointRots_getD m pose k hk⟩
  · unfold decodeRootPos listToVec3
    rw [getD_take pose 3 0 0 (by omega), getD_take pose 3 1 0 (by omega),
      getD_take pose 3 2 0 (by omega)]
  · unfold decodeRootRot listToVec3
    rw [getD_take _ 3 0 0 (by omega), getD_take _ 3 1 0 (by omega),
      getD_take _ 3 2 0 (by omega), getD_drop, getD_drop, getD_drop]
  · intro k hk
    have hns : k < (m.bodies.tail.map (fun b => b.joint.dof)).length := by
      simpa using hk
    constructor
    · exact splitSegs_getD _ _ k hns
    · rw [dofSegments, splitSegs_getD _ _ k hns]
      have hxs : (pose.drop 6).length = sumDof m := by
        rw [List.length_drop, hlen]; omega
      have hsum : ((m.bodies.tail.map (fun b => b.joint.dof)).take k).sum +
          (m.bodies.tail.map (fun b => b.joint.dof)).getD k 0 ≤ sumDof m := by
        rw [List.getD_eq_getElem _ _ hns]
        have h1 := List.sum_take_succ (m.bodies.tail.map (fun b => b.joint.dof))
          k hns
        have h2 := List.sum_take_add_sum_drop
          (m.bodies.tail.map (fun b => b.joint.dof)) (k + 1)
        rw [sumDof]
        omega
      rw [List.length_take, List.length_drop, hxs]
      omega

/-- Witness for C2 at the concrete two-body chain and all-zero pose. -/
theorem C2_pose_decoding_witness :
    chainPose.length = 6 + sumDof chainModel ∧
    (decodeRootPos chainPose = listToVec3 (chainPose.take 3) ∧
     decodeRootRot chainPose =
       exp_map_to_quat (listToVec3 ((chainPose.drop 3).take 3)) ∧
     (∀ k, k < chainModel.bodies.tail.length →
       (dofSegments chainModel chainPose).getD k [] =
         ((chainPose.drop 6).drop
             (((chainModel.bodies.tail.map (fun b => b.joint.dof)).take k).sum)).take
           ((chainModel.bodies.tail.map (fun b => b.joint.dof)).getD k 0) ∧
       ((dofSegments chainModel chainPose).getD k []).length =
         (chainModel.bodies.tail.map (fun b => b.joint.dof)).getD k 0) ∧
     (∀ k, k < chainModel.bodies.tail.length →
       (jointRots chainModel chainPose).getD k default =
         jointRot (chainModel.bodies.tail.getD k default).joint
           ((dofSegments chainModel chainPose).getD k []))) :=
  ⟨chainPose_length, C2_pose_decoding chainModel chainPose chainPose_length⟩

/-- C3: the per-frame skeleton computation in the web viewer's skeleton
endpoint and in the standalone Rerun visualizer are equivalent — for the same
character model and the same frame vector both pipelines produce identical
body positions and orientations. -/
theorem C3_pipelines_equivalent (m : CharacterModel) (frame : List ℝ) :
    appFramePipeline m frame = rerunFramePipeline m frame := rfl

/-- C4: the exponential-map-to-quaternion conversion maps any nonzero 3-vector
`v` with angle `θ = |v|` to the unit quaternion
`(x,y,z,w) = (axis·sin(θ/2), cos(θ/2))` with `axis = v/θ` (its squared norm is
exactly 1), and at `v = (0,0,0)` returns exactly the identity quaternion
`(0,0,0,1)`. -/
theorem C4_exp_map_to_quat_spec (v : Vec3) :
    (v ≠ ⟨0, 0, 0⟩ →
      exp_map_to_quat v =
        ⟨v.x / v.norm * Real.sin (v.norm / 2),
         v.y / v.norm * Real.sin (v.norm / 2),
         v.z / v.norm * Real.sin (v.norm / 2),
         Real.cos (v.norm / 2)⟩ ∧
      quatNormSq (exp_map_to_quat v) = 1) ∧
    exp_map_to_quat ⟨0, 0, 0⟩ = ⟨0, 0, 0, 1⟩ := by
  constructor
  · intro hv
    have hn : v.norm ≠ 0 := fun h => hv ((vec_norm_zero_iff v).mp h)
    refine ⟨?_, exp_map_norm_sq v hv⟩
    unfold exp_map_to_quat
    simp only [if_neg hn]
  · have h0 : (⟨0, 0, 0⟩ : Vec3).norm = 0 := by
      simp [Vec3.norm]
    unfold exp_map_to_quat
    simp only [h0, if_pos rfl]
    rfl

/-- Witness for C4 at the concrete nonzero vector `(1,0,0)`. -/
theorem C4_exp_map_to_quat_spec_witness :
    (⟨1, 0, 0⟩ : Vec3) ≠ ⟨0, 0, 0⟩ ∧
    (exp_map_to_quat ⟨1, 0, 0⟩ =
        ⟨(1 : ℝ) / Vec3.norm ⟨1, 0, 0⟩ * Real.sin (Vec3.norm ⟨1, 0, 0⟩ / 2),
         (0 : ℝ) / Vec3.norm ⟨1, 0, 0⟩ * Real.sin (Vec3.norm ⟨1, 0, 0⟩ / 2),
         (0 : ℝ) / Vec3.norm ⟨1, 0, 0⟩ * Real.sin (Vec3.norm ⟨1, 0, 0⟩ / 2),
         Real.cos (Vec3.norm ⟨1, 0, 0⟩ / 2)⟩ ∧
      quatNormSq (exp_map_to_quat ⟨1, 0, 0⟩) = 1) ∧
    exp_map_to_quat ⟨0, 0, 0⟩ = ⟨0, 0, 0, 1⟩ :=
  ⟨by simp, (C4_exp_map_to_quat_spec ⟨1, 0, 0⟩).1 (by simp),
   (C4_exp_map_to_quat_spec ⟨1, 0, 0⟩).2⟩

/-- C5: for every CharacterModel and every pose vector whose length is not
`6 + sum(DOF)`, checked evaluation fails with a `ShapeMismatch` error and
never returns a Pose — it does not silently truncate or pad the mismatched
data. -/
theorem C5_shape_mismatch (m : CharacterModel) (pose : List ℝ)
    (hlen : pose.length ≠ 6 + sumDof m) :
    evaluateChecked m pose = Except.error CoreErr.ShapeMismatch ∧
    ∀ res, evaluateChecked m pose ≠ Except.ok res := by
  have h : evaluateChecked m pose = Except.error CoreErr.ShapeMismatch := by
    unfold evaluateChecked
    rw [if_pos hlen]
  exact ⟨h, fun res hres => by rw [h] at hres; exact Except.noConfusion hres⟩

/-- Witness for C5: a pose vector of length 4 against the two-body chain
(which needs length 9). -/
theorem C5_shape_mismatch_witness :
    ([0, 0, 0, 0] : List ℝ).length ≠ 6 + sumDof chainModel ∧
    (evaluateChecked chainModel [0, 0, 0, 0] =
        Except.error CoreErr.ShapeMismatch ∧
      ∀ res, evaluateChecked chainModel [0, 0, 0, 0] ≠ Except.ok res) :=
  ⟨by simp [sumDof, chainModel],
   C5_shape_mismatch chainModel [0, 0, 0, 0] (by simp [sumDof, chainModel])⟩

/-- C6: for every Motion with positive fps, the playback duration equals
`(num_frames - 1) / fps` when the loop mode is CLAMP and `num_frames / fps`
when the loop mode is WRAP. -/
theorem C6_duration_formula (m : Motion) (_hfps : 0 < m.fps) :
    (m.loop_mode = LoopMode.CLAMP →
      m.get_length = ((m.frames.length : ℝ) - 1) / m.fps) ∧
    (m.loop_mode = LoopMode.WRAP →
      m.get_length = (m.frames.length : ℝ) / m.fps) := by
  constructor
  · intro h
    unfold Motion.get_length
    rw [h]
  · intro h
    unfold Motion.get_length
    rw [h]

/-- Witness for C6 at the concrete two-frame WRAP motion. -/
theorem C6_duration_formula_witness :
    (0 : ℝ) < wrapMotion.fps ∧
    ((wrapMotion.loop_mode = LoopMode.CLAMP →
       wrapMotion.get_length =
         ((wrapMotion.frames.length : ℝ) - 1) / wrapMotion.fps) ∧
     (wrapMotion.loop_mode = LoopMode.WRAP →
       wrapMotion.get_length =
         (wrapMotion.frames.length : ℝ) / wrapMotion.fps)) :=
  ⟨by norm_num [wrapMotion], C6_duration_formula wrapMotion
    (by norm_num [wrapMotion])⟩

/-- C7: for every non-empty Motion in WRAP mode with positive fps,
`resolve_time` is periodic in the query time with period the duration
`num_frames / fps`. -/
theorem C7_wrap_periodic (m : Motion) (t : ℝ) (hmode : m.loop_mode = LoopMode.WRAP)
    (hne : m.frames ≠ []) (hfps : 0 < m.fps) :
    resolve_time m (t + m.get_length) = resolve_time m t := by
  have hlen : m.frames.length ≠ 0 := fun h => hne (List.length_eq_zero.mp h)
  have hdur : 0 < m.get_length := by
    unfold Motion.get_length
    rw [hmode]
    have : (0 : ℝ) < (m.frames.length : ℝ) := by
      have := Nat.pos_of_ne_zero hlen
      exact_mod_cast this
    positivity
  have hd0 : m.get_length ≠ 0 := ne_of_gt hdur
  have hred : t + m.get_length - m.get_length * ⌊(t + m.get_length) / m.get_length⌋ =
      t - m.get_length * ⌊t / m.get_length⌋ := by
    have hq : (t + m.get_length) / m.get_length = t / m.get_length + 1 := by
      field_simp
    rw [hq, Int.floor_add_one]
    push_cast
    ring
  unfold resolve_time
  rw [if_neg hlen, if_neg hlen, hmode]
  simp only [hred]

/-- Witness for C7 at the concrete two-frame WRAP motion and `t = 1/2`. -/
theorem C7_wrap_periodic_witness :
    (wrapMotion.loop_mode = LoopMode.WRAP ∧ wrapMotion.frames ≠ [] ∧
      (0 : ℝ) < wrapMotion.fps) ∧
    resolve_time wrapMotion ((1 : ℝ) / 2 + wrapMotion.get_length) =
      resolve_time wrapMotion ((1 : ℝ) / 2) :=
  ⟨⟨rfl, by simp [wrapMotion], by norm_num [wrapMotion]⟩,
   C7_wrap_periodic wrapMotion ((1 : ℝ) / 2) rfl (by simp [wrapMotion])
     (by norm_num [wrapMotion])⟩

/-- C8: for every request to the motion endpoints of the web viewer, a missing
motion file (or missing character model) yields an HTTP 404 response with a
JSON error object, an exception during loading or evaluation yields an HTTP
500 response carrying the exception message, and in every such case no
skeleton/motion payload is returned. -/
theorem C8_motion_endpoint_errors (sreq : SkeletonRequest)
    (mreq : MotionRequest) (rreq : RawRequest) (cm : CharacterModel)
    (e : String) :
    (sreq.fileExists = false →
      get_motion_skeleton sreq = ⟨404, HttpBody.errorJson "File not found"⟩) ∧
    (sreq.fileExists = true → sreq.charModel = none →
      get_motion_skeleton sreq =
        ⟨404, HttpBody.errorJson
          ("Character model not found for " ++ sreq.characterName)⟩) ∧
    (sreq.fileExists = true → sreq.charModel = some cm →
      sreq.loadMotion = Except.error e →
      get_motion_skeleton sreq = ⟨500, HttpBody.errorJson e⟩) ∧
    (sreq.fileExists = false ∨ sreq.charModel = none ∨
        sreq.loadMotion = Except.error e →
      ((get_motion_skeleton sreq).body.isPayload = false)) ∧
    (mreq.fileExists = false →
      get_motion mreq = ⟨404, HttpBody.errorJson "File not found"⟩) ∧
    (mreq.fileExists = true → mreq.loadMotion = Except.error e →
      get_motion mreq = ⟨500, HttpBody.errorJson e⟩) ∧
    (mreq.fileExists = false ∨ mreq.loadMotion = Except.error e →
      ((get_motion mreq).body.isPayload = false)) ∧
    (rreq.fileExists = false →
      get_motion_raw rreq = ⟨404, HttpBody.errorJson "File not found"⟩) ∧
    (rreq.fileExists = true → rreq.loadPickle = Except.error e →
      get_motion_raw rreq = ⟨500, HttpBody.errorJson e⟩) ∧
    (rreq.fileExists = false ∨ rreq.loadPickle = Except.error e →
      ((get_motion_raw rreq).body.isPayload = false)) := by
  refine ⟨?_, ?_, ?_, ?_, ?_, ?_, ?_, ?_, ?_, ?_⟩
  · intro h; simp [get_motion_skeleton, h]
  · intro h hcm; simp [get_motion_skeleton, h, hcm]
  · intro h hcm hload; simp [get_motion_skeleton, h, hcm, hload]
  · intro hcase
    unfold get_motion_skeleton
    rcases hex : sreq.fileExists with _ | _
    · simp [HttpBody.isPayload]
    · rcases hcm : sreq.charModel with _ | cm'
      · simp [HttpBody.isPayload]
      · rcases hload : sreq.loadMotion with e' | mo
        · simp [HttpBody.isPayload]
        · rcases hcase with h | h | h
          · rw [h] at hex; exact (Bool.false_ne_true hex).elim
          · rw [h] at hcm; exact Option.noConfusion hcm
          · rw [h] at hload; exact Except.noConfusion hload
  · intro h; simp [get_motion, h]
  · intro h hload; simp [get_motion, h, hload]
  · intro hcase
    unfold get_motion
    rcases hex : mreq.fileExists with _ | _
    · simp [HttpBody.isPayload]
    · rcases hload : mreq.loadMotion with e' | mo
      · simp [HttpBody.isPayload]
      · rcases hcase with h | h
        · rw [h] at hex; exact (Bool.false_ne_true hex).elim
        · rw [h] at hload; exact Except.noConfusion hload
  · intro h; simp [get_motion_raw, h]
  · intro h hload; simp [get_motion_raw, h, hload]
  · intro hcase
    unfold get_motion_raw
    rcases hex : rreq.fileExists with _ | _
    · simp [HttpBody.isPayload]
    · rcases hload : rreq.loadPickle with e' | d
      · simp [HttpBody.isPayload]
      · rcases hcase with h | h
        · rw [h] at hex; exact (Bool.false_ne_true hex).elim
        · rw [h] at hload; exact Except.noConfusion hload

/-- Witness for C8: a skeleton request for a missing file gets the 404 error
response, a motion request whose load raises gets the 500 response carrying
the message, a raw request for a missing file gets the 404 error response. -/
theorem C8_motion_endpoint_errors_witness :
    get_motion_skeleton ⟨false, "humanoid", none, Except.error "x"⟩ =
      ⟨404, HttpBody.errorJson "File not found"⟩ ∧
    get_motion ⟨true, Except.error "boom", 0⟩ =
      ⟨500, HttpBody.errorJson "boom"⟩ ∧
    get_motion_raw ⟨false, Except.ok []⟩ =
      ⟨404, HttpBody.errorJson "File not found"⟩ := by
  obtain ⟨h1, _, _, _, _, h6, _, h8, _, _⟩ :=
    C8_motion_endpoint_errors ⟨false, "humanoid", none, Except.error "x"⟩
      ⟨true, Except.error "boom", 0⟩ ⟨false, Except.ok []⟩ chainModel "boom"
  exact ⟨h1 rfl, h6 rfl rfl, h8 rfl⟩

/-- C9 counterexample: run init → start_recording → capture_frame →
stop_recording; after `stop_recording` returns, the annotator and the render
product are still present (`some 0`), not released or reset — refuting the
teardown half of the claim at this concrete input. -/
theorem C9_stop_releases_annotator_cex :
    (stop_recording
        (capture_frame
          (start_recording (recorderInit (640, 480) 30) false).1
          (some [1, 2, 3])).1 false).1.annotator ≠ none ∧
    (stop_recording
        (capture_frame
          (start_recording (recorderInit (640, 480) 30) false).1
          (some [1, 2, 3])).1 false).1.render_product ≠ none := by
  decide

/-- C9 (amended): the lazy annotator state is created on the first frame
capture while recording; subsequent captures reuse it without re-creating it;
`stop_recording` clears the recording flag but leaves the annotator and
render-product state in place. -/
theorem C9_annotator_lifecycle (s : RecorderState) (d : Option (List ℕ))
    (a : ℕ) (w : Bool) :
    (s.recording = true → s.annotator = none →
      (capture_frame s d).1.annotator = some 0 ∧
      RecAction.createAnnotator ∈ (capture_frame s d).2) ∧
    (s.recording = true → s.annotator = some a →
      (capture_frame s d).1.annotator = some a ∧
      RecAction.createAnnotator ∉ (capture_frame s d).2) ∧
    ((stop_recording s w).1.annotator = s.annotator ∧
     (stop_recording s w).1.render_product = s.render_product ∧
     (stop_recording s w).1.recording = false) := by
  refine ⟨?_, ?_, ?_⟩
  · intro hr ha
    simp [capture_frame, capture_frame_impl, ensure_annotator, hr, ha]
  · intro hr ha
    simp [capture_frame, capture_frame_impl, ensure_annotator, hr, ha]
  · unfold stop_recording stop_recording_impl
    rcases hr : s.recording with _ | _
    · simp [hr]
    · simp only [Bool.true_eq_false, false_or]
      by_cases hf : s.recorded_frames.length = 0
      · simp [hf]
      · simp [hf]

/-- Witness for C9 (amended): a first capture on a fresh recording creates the
annotator; a capture with an existing annotator (id 5) reuses it; stopping
that recorder keeps annotator and render product. -/
theorem C9_annotator_lifecycle_witness :
    ((capture_frame ⟨(640, 480), 30, [], true, none, none⟩
        (some [1])).1.annotator = some 0 ∧
      RecAction.createAnnotator ∈
        (capture_frame ⟨(640, 480), 30, [], true, none, none⟩ (some [1])).2) ∧
    ((capture_frame ⟨(640, 480), 30, [[1]], true, some 5, some 5⟩
        (some [1])).1.annotator = some 5 ∧
      RecAction.createAnnotator ∉
        (capture_frame ⟨(640, 480), 30, [[1]], true, some 5, some 5⟩
          (some [1])).2) ∧
    ((stop_recording ⟨(640, 480), 30, [[1]], true, some 5, some 5⟩
        false).1.annotator = some 5 ∧
      (stop_recording ⟨(640, 480), 30, [[1]], true, some 5, some 5⟩
        false).1.render_product = some 5 ∧
      (stop_recording ⟨(640, 480), 30, [[1]], true, some 5, some 5⟩
        false).1.recording = false) :=
  ⟨(C9_annotator_lifecycle ⟨(640, 480), 30, [], true, none, none⟩
      (some [1]) 0 false).1 rfl rfl,
   (C9_annotator_lifecycle ⟨(640, 480), 30, [[1]], true, some 5, some 5⟩
      (some [1]) 5 false).2.1 rfl rfl,
   (C9_annotator_lifecycle ⟨(640, 480), 30, [[1]], true, some 5, some 5⟩
      (some [1]) 5 false).2.2⟩

/-- C10: calling `capture_frame` when recording has not been started leaves
the recorder's state unchanged and triggers no side effect: no frame is
appended, no annotator or render product is created, no rendering happens. -/
theorem C10_capture_frame_idle (s : RecorderState) (rgbData : Option (List ℕ))
    (h : s.recording = false) :
    capture_frame s rgbData = (s, []) := by
  unfold capture_frame
  rw [h]
  simp

/-- Witness for C10: a fresh recorder is not recording and capturing changes
nothing. -/
theorem C10_capture_frame_idle_witness :
    (recorderInit (640, 480) 30).recording = false ∧
    capture_frame (recorderInit (640, 480) 30) (some [1, 2, 3]) =
      (recorderInit (640, 480) 30, []) :=
  ⟨rfl, C10_capture_frame_idle (recorderInit (640, 480) 30) (some [1, 2, 3]) rfl⟩

end

end MimicKit
